import Mathlib

/-!
Shallow embedding of `src/TinyG2/xio.cpp` (TinyG2 extended IO functions).

The central algorithm is `read_line`, a resumable non-blocking line reader
operating on a caller-supplied byte buffer and a persisted cursor.  The byte
source (`read_char`, which returns a byte or the no-data sentinel `_FDEV_ERR`)
is modelled as a list of `Option Nat`: `some c` is a byte delivered by
`SerialUSB.readByte`, `none` is the `_FDEV_ERR` "no data now" answer.  A call
to `read_line` consumes elements of that list from the front, one per loop
iteration, and returns the status, the final buffer, the final cursor and the
part of the source not consumed.

Machine-integer details kept from the C source:
* the cursor parameter is `uint16_t *index`, so the increment `(*index)++`
  wraps modulo 2^16 (`size` itself is a `size_t`, which is wider);
* bytes are stored through `buffer[*index] = (uint8_t)c`, modelled as `c % 256`;
* the terminator comparison `(c == LF) || (c == CR)` happens on the raw
  (uncast) value `c`.

The buffer `uint8_t *buffer` is modelled as a total function `Nat → Nat`
updated pointwise, which makes frame properties (which cells a call may
write) directly expressible.
-/

/-- ASCII line feed; the character constant used by xio.cpp (its header is not
part of the fragment, the value is the standard ASCII one). -/
def LF : Nat := 10

/-- ASCII carriage return. -/
def CR : Nat := 13

/-- ASCII NUL, written over the terminator position at OK return. -/
def NUL : Nat := 0

/-- Wrap-around modulus of the `uint16_t` cursor. -/
def UINT16_MOD : Nat := 65536

/-- Status codes returned by the xio functions.  The numeric `stat_t` codes
live in a header outside the fragment; only their distinctness is used, so
they are modelled as an inductive type. -/
inductive stat_t where
  | OK
  | EAGAIN
  | BUFFER_FULL
  | FILE_SIZE_EXCEEDED
  | XIO_ASSERTION_FAILURE
  deriving DecidableEq, Repr

/-- The `for` loop of `read_line`: while `index < size`, fetch one element of
the byte source; on a byte, store it (cast to `uint8_t`) at `buffer[index]`,
return OK (overwriting with NUL) if it is CR or LF, otherwise advance the
16-bit cursor and continue; on no data return EAGAIN; when the condition
fails return BUFFER_FULL.  Returns (status, buffer, index, unconsumed source). -/
def read_line_go (size : Nat) (input : List (Option Nat)) (buffer : Nat → Nat)
    (index : Nat) : stat_t × (Nat → Nat) × Nat × List (Option Nat) :=
  if index < size then
    match input with
    | [] => (stat_t.EAGAIN, buffer, index, [])
    | none :: rest => (stat_t.EAGAIN, buffer, index, rest)
    | some c :: rest =>
      let buffer1 : Nat → Nat := fun j => if j = index then c % 256 else buffer j
      if c = LF ∨ c = CR then
        (stat_t.OK, fun j => if j = index then NUL else buffer1 j, index, rest)
      else
        read_line_go size rest buffer1 ((index + 1) % UINT16_MOD)
  else
    (stat_t.BUFFER_FULL, buffer, index, input)

/-- `read_line(buffer, index, size)` from xio.cpp: reject `*index >= size`
with FILE_SIZE_EXCEEDED, otherwise run the read loop. -/
def read_line (buffer : Nat → Nat) (index : Nat) (size : Nat)
    (input : List (Option Nat)) : stat_t × (Nat → Nat) × Nat × List (Option Nat) :=
  if index ≥ size then (stat_t.FILE_SIZE_EXCEEDED, buffer, index, input)
  else read_line_go size input buffer index

/-- Byte predicate: true when the byte is not a line terminator. -/
def not_term (c : Nat) : Bool := !(c == LF || c == CR)

/-! ### The xio singleton: devices, channels, sentinels, SPI state -/

/-- Modelled from the spec: the device-state enum of xio.h is not in the
fragment.  The spec fixes UNCHANGED = 0 (the value `xio_callback` compares
against) and two further distinct states; the concrete nonzero values are
immaterial to every claim. -/
def DEVICE_UNCHANGED : Nat := 0

/-- Device state "not connected" (nonzero, distinct from CONNECTED). -/
def DEVICE_NOT_CONNECTED : Nat := 1

/-- Device state "connected" (nonzero, distinct from NOT_CONNECTED). -/
def DEVICE_CONNECTED : Nat := 2

/-- Modelled from the spec: device indices follow the numbering convention of
the missing header; USB0 and USB1 are the two USB devices. -/
def DEV_USB0 : Nat := 0

/-- Index of the second USB device. -/
def DEV_USB1 : Nat := 1

/-- One physical device record: the asynchronous mailbox `next_state` and the
authoritative `current_state`. -/
structure xioDevice_t where
  next_state : Nat
  current_state : Nat
  deriving DecidableEq, Repr

/-- One logical channel record; `type` is assigned from the table index. -/
structure xioChannel_t where
  type : Nat
  deriving DecidableEq, Repr

/-- The `xioSingleton_t` global `xio`: sentinels bracketing the device and
channel tables (modelled as index functions) and the SPI state byte. -/
structure xioSingleton_t where
  magic_start : Nat
  d : Nat → xioDevice_t
  c : Nat → xioChannel_t
  spi_state : Nat
  magic_end : Nat

/-- `xio_init_assertions()`: writes the magic constant into both sentinels.
MAGICNUM's value lives in a header outside the fragment, so it is taken as a
parameter; no claim depends on its value. -/
def xio_init_assertions (MAGICNUM : Nat) (s : xioSingleton_t) : xioSingleton_t :=
  { s with magic_start := MAGICNUM, magic_end := MAGICNUM }

/-- `xio_test_assertions()`: failure when either sentinel differs from the
magic constant, OK otherwise.  A pure query — it returns a status and, in
this functional model, by construction cannot modify the singleton. -/
def xio_test_assertions (MAGICNUM : Nat) (s : xioSingleton_t) : stat_t :=
  if s.magic_start ≠ MAGICNUM ∨ s.magic_end ≠ MAGICNUM then
    stat_t.XIO_ASSERTION_FAILURE
  else stat_t.OK

/-- The USB connection-state callback installed by `xio_init` (the two
lambdas differ only in the device index they capture): overwrite that
device's `next_state` with CONNECTED or NOT_CONNECTED. -/
def connection_callback (s : xioSingleton_t) (dev : Nat) (connected : Bool) :
    xioSingleton_t :=
  { s with
    d := fun j =>
      if j = dev then
        { s.d j with
          next_state :=
            if connected then DEVICE_CONNECTED else DEVICE_NOT_CONNECTED }
      else s.d j }

/-- Delivering a finite sequence of connection notifications to one device,
in order. -/
def notify_sequence (s : xioSingleton_t) (dev : Nat) (ns : List Bool) :
    xioSingleton_t :=
  ns.foldl (fun t b => connection_callback t dev b) s

/-- `xio_callback()`: when neither USB device has a pending state change,
return OK; the remaining branch (binding logic) is an empty stub, so it also
just returns OK. -/
def xio_callback (s : xioSingleton_t) : stat_t × xioSingleton_t :=
  if (s.d DEV_USB0).next_state = 0 ∧ (s.d DEV_USB1).next_state = 0 then
    (stat_t.OK, s)
  else
    (stat_t.OK, s)

/-- A concrete singleton value used by the witnesses. -/
def xio_example : xioSingleton_t :=
  { magic_start := 0
    d := fun _ => { next_state := 0, current_state := 0 }
    c := fun i => { type := i }
    spi_state := 0
    magic_end := 0 }


/-! ### SPI configuration setter -/

/-- Modelled from the spec: `nv->value` is the float-valued numeric field of
an `nvObj_t` (declared outside the fragment); float values are modelled as
exact rationals. -/
structure nvObj_t where
  value : ℚ

/-- The SPI enable constant; the spec fixes the enable value as 1. -/
def SPI_ENABLE : ℚ := 1

/-- The SPI disable constant; the spec fixes the disable value as 0. -/
def SPI_DISABLE : ℚ := 0

/-- Modelled from the spec: `fp_EQ` (util.h, outside the fragment) tests
whether the value equals the given constant. -/
def fp_EQ (a b : ℚ) : Bool := a == b

/-- The C cast `(uint8_t)nv->value`: truncation toward zero, reduced mod 256
(the conversion has no defined C meaning outside [0, 256); the model
totalises it, and the claims below only rely on it inside that range). -/
def float_to_uint8 (v : ℚ) : Nat := (⌊v⌋).toNat % 256

/-- Direction of a configurable hardware pin. -/
inductive PinMode where
  | kInput
  | kOutput
  deriving DecidableEq, Repr

/-- The three SPI pins whose direction `xio_set_spi` may switch. -/
structure spiPins_t where
  spi_miso_pin : PinMode
  spi_mosi_pin : PinMode
  spi_sck_pin : PinMode
  deriving DecidableEq, Repr

/-- A concrete pin state used by the witnesses. -/
def spi_pins_example : spiPins_t :=
  ⟨PinMode.kInput, PinMode.kInput, PinMode.kInput⟩

/-- `xio_set_spi(nv)`: store the value cast to `uint8_t` into
`xio.spi_state`; then (ARM build) set all three pins to output if the value
equals SPI_ENABLE, to input if it equals SPI_DISABLE, and otherwise leave
the pins alone; always return OK. -/
def xio_set_spi (nv : nvObj_t) (s : xioSingleton_t) (pins : spiPins_t) :
    stat_t × xioSingleton_t × spiPins_t :=
  let s2 := { s with spi_state := float_to_uint8 nv.value }
  if fp_EQ nv.value SPI_ENABLE then
    (stat_t.OK, s2, ⟨PinMode.kOutput, PinMode.kOutput, PinMode.kOutput⟩)
  else if fp_EQ nv.value SPI_DISABLE then
    (stat_t.OK, s2, ⟨PinMode.kInput, PinMode.kInput, PinMode.kInput⟩)
  else
    (stat_t.OK, s2, pins)


example :
    (read_line (fun _ => 0) 0 32
      (List.map some [71, 49, 32, 88, 49, 48, 10])).1 = stat_t.OK := by decide

example :
    (read_line (fun _ => 0) 0 32
      (List.map some [71, 49, 32, 88, 49, 48, 10])).2.2.1 = 6 := by decide

example :
    (read_line (fun _ => 0) 0 32 (List.map some [65, 66, 67])).1
      = stat_t.EAGAIN := by decide

example :
    (read_line (fun _ => 0) 0 32 (List.map some [65, 66, 67])).2.2.1 = 3 := by
  decide

example :
    (read_line (fun _ => 0) 0 2 (List.map some [65, 66, 67])).1
      = stat_t.BUFFER_FULL := by decide

example : (read_line (fun _ => 0) 5 3 [some 65]).1
      = stat_t.FILE_SIZE_EXCEEDED := by decide

/-! ### General lemmas about the read loop -/

/-- The loop body never produces FILE_SIZE_EXCEEDED; that status comes only
from the entry guard. -/
theorem read_line_go_ne_FSE (input : List (Option Nat)) :
    ∀ (buffer : Nat → Nat) (index size : Nat),
      (read_line_go size input buffer index).1 ≠ stat_t.FILE_SIZE_EXCEEDED := by
  induction input with
  | nil =>
    intro buffer index size
    by_cases hlt : index < size <;> simp [read_line_go, hlt]
  | cons x rest ih =>
    intro buffer index size
    cases x with
    | none => by_cases hlt : index < size <;> simp [read_line_go, hlt]
    | some c =>
      by_cases hlt : index < size
      · by_cases hterm : c = LF ∨ c = CR
        · simp [read_line_go, hlt, hterm]
        · simpa [read_line_go, hlt, hterm] using ih _ _ _
      · simp [read_line_go, hlt]

/-- When the loop reports EAGAIN, the cursor it leaves behind is strictly
below `size` (EAGAIN is only returned from inside the loop body). -/
theorem read_line_go_eagain_lt (input : List (Option Nat)) :
    ∀ (buffer : Nat → Nat) (index size : Nat),
      (read_line_go size input buffer index).1 = stat_t.EAGAIN →
      (read_line_go size input buffer index).2.2.1 < size := by
  induction input with
  | nil =>
    intro buffer index size h
    by_cases hlt : index < size
    · simp [read_line_go, hlt]
    · simp [read_line_go, hlt] at h
  | cons x rest ih =>
    intro buffer index size h
    cases x with
    | none =>
      by_cases hlt : index < size
      · simp [read_line_go, hlt]
      · simp [read_line_go, hlt] at h
    | some c =>
      by_cases hlt : index < size
      · by_cases hterm : c = LF ∨ c = CR
        · simp [read_line_go, hlt, hterm] at h
        · simp only [read_line_go, if_pos hlt, if_neg hterm] at h ⊢
          exact ih _ _ _ h
      · simp [read_line_go, hlt] at h

/-- If the source contains no CR and no LF byte, the loop never returns OK. -/
theorem read_line_go_no_term (input : List (Option Nat)) :
    ∀ (buffer : Nat → Nat) (index size : Nat),
      (∀ c : Nat, some c ∈ input → ¬(c = LF ∨ c = CR)) →
      (read_line_go size input buffer index).1 ≠ stat_t.OK := by
  induction input with
  | nil =>
    intro buffer index size _
    by_cases hlt : index < size <;> simp [read_line_go, hlt]
  | cons x rest ih =>
    intro buffer index size hno
    cases x with
    | none => by_cases hlt : index < size <;> simp [read_line_go, hlt]
    | some c =>
      by_cases hlt : index < size
      · by_cases hterm : c = LF ∨ c = CR
        · exact absurd hterm (hno c (by simp))
        · simp only [read_line_go, if_pos hlt, if_neg hterm]
          exact ih _ _ _ (fun c' hc' => hno c' (by simp [hc']))
      · simp [read_line_go, hlt]

/-- Consuming a run of available non-terminator bytes that fits strictly
below both `size` and the 16-bit wrap limit: the loop stores the bytes at
consecutive positions, advances the cursor past them, and continues with the
remaining source.  Positions outside the stored run keep their old contents. -/
theorem read_line_go_consume (bs : List Nat) :
    ∀ (rest : List (Option Nat)) (buffer : Nat → Nat) (index size : Nat),
      (∀ c ∈ bs, ¬(c = LF ∨ c = CR)) →
      index + bs.length ≤ size →
      index + bs.length < UINT16_MOD →
      ∃ buffer2,
        read_line_go size (bs.map some ++ rest) buffer index
          = read_line_go size rest buffer2 (index + bs.length)
        ∧ (∀ j, index ≤ j → j < index + bs.length →
            buffer2 j = bs.getD (j - index) 0 % 256)
        ∧ (∀ j, j < index ∨ index + bs.length ≤ j → buffer2 j = buffer j) := by
  induction bs with
  | nil =>
    intro rest buffer index size _ _ _
    refine ⟨buffer, by simp, ?_, ?_⟩
    · intro j h1 h2
      simp only [List.length_nil] at h2
      omega
    · intro j _
      rfl
  | cons c t ih =>
    intro rest buffer index size hno hle hM
    have hlen : (c :: t).length = t.length + 1 := List.length_cons c t
    have hlt : index < size := by omega
    have hterm : ¬(c = LF ∨ c = CR) := hno c (by simp)
    have hM' : index + 1 + t.length < UINT16_MOD := by omega
    have hmod : (index + 1) % UINT16_MOD = index + 1 := by
      apply Nat.mod_eq_of_lt
      omega
    obtain ⟨buffer2, heq, hin, hout⟩ :=
      ih rest (fun j => if j = index then c % 256 else buffer j) (index + 1) size
        (fun c' hc' => hno c' (by simp [hc'])) (by omega) hM'
    refine ⟨buffer2, ?_, ?_, ?_⟩
    · rw [show (c :: t).map some ++ rest = some c :: (t.map some ++ rest) from
        by simp]
      simp only [read_line_go, if_pos hlt, if_neg hterm, hmod]
      rw [heq]
      have : index + 1 + t.length = index + (c :: t).length := by omega
      rw [this]
    · intro j h1 h2
      rcases Nat.eq_or_lt_of_le h1 with hj | hj
      · have h0 : buffer2 index = (fun j => if j = index then c % 256 else buffer j) index :=
          hout index (Or.inl (by omega))
        simp only [if_pos rfl] at h0
        rw [← hj]
        simpa using h0
      · have h0 := hin j (by omega) (by omega)
        have hsub : j - index = (j - (index + 1)) + 1 := by omega
        rw [h0, hsub]
        simp
    · intro j hj
      have h0 : buffer2 j = (fun j => if j = index then c % 256 else buffer j) j :=
        hout j (by omega)
      have hne : j ≠ index := by omega
      simpa [hne] using h0

/-- Consuming a run of available non-terminator bytes when `size` is at least
the 16-bit wrap limit: the loop condition always holds, every byte is
consumed, and the cursor ends at the wrapped sum. -/
theorem read_line_go_consume_wrap (bs : List Nat) :
    ∀ (rest : List (Option Nat)) (buffer : Nat → Nat) (index size : Nat),
      (∀ c ∈ bs, ¬(c = LF ∨ c = CR)) →
      index < UINT16_MOD →
      UINT16_MOD ≤ size →
      ∃ buffer2,
        read_line_go size (bs.map some ++ rest) buffer index
          = read_line_go size rest buffer2 ((index + bs.length) % UINT16_MOD) := by
  induction bs with
  | nil =>
    intro rest buffer index size _ hiM _
    refine ⟨buffer, ?_⟩
    simp only [List.map_nil, List.nil_append, List.length_nil, Nat.add_zero,
      Nat.mod_eq_of_lt hiM]
  | cons c t ih =>
    intro rest buffer index size hno hiM hMs
    have hlt : index < size := by omega
    have hterm : ¬(c = LF ∨ c = CR) := hno c (by simp)
    have hM0 : 0 < UINT16_MOD := by simp [UINT16_MOD]
    obtain ⟨buffer2, heq⟩ :=
      ih rest (fun j => if j = index then c % 256 else buffer j)
        ((index + 1) % UINT16_MOD) size
        (fun c' hc' => hno c' (by simp [hc'])) (Nat.mod_lt _ hM0) hMs
    refine ⟨buffer2, ?_⟩
    rw [show (c :: t).map some ++ rest = some c :: (t.map some ++ rest) from
      by simp]
    simp only [read_line_go, if_pos hlt, if_neg hterm]
    rw [heq]
    have harg : ((index + 1) % UINT16_MOD + t.length) % UINT16_MOD
        = (index + (c :: t).length) % UINT16_MOD := by
      simp only [List.length_cons, UINT16_MOD]
      omega
    rw [harg]

/-- Composition of a run that ended in EAGAIN with a later retry: running the
loop on the whole source equals running it on the prefix and then continuing,
from the buffer and cursor the first run left behind, on the rest.  The
prefix here is all plain bytes (the first run stops by exhausting it). -/
theorem read_line_go_resume (pre : List Nat) :
    ∀ (more : List (Option Nat)) (buffer : Nat → Nat) (index size : Nat),
      (read_line_go size (pre.map some) buffer index).1 = stat_t.EAGAIN →
      read_line_go size (pre.map some ++ more) buffer index
        = read_line_go size more
            (read_line_go size (pre.map some) buffer index).2.1
            (read_line_go size (pre.map some) buffer index).2.2.1 := by
  induction pre with
  | nil =>
    intro more buffer index size h
    by_cases hlt : index < size
    · simp [read_line_go, hlt]
    · simp [read_line_go, hlt] at h
  | cons c t ih =>
    intro more buffer index size h
    by_cases hlt : index < size
    · by_cases hterm : c = LF ∨ c = CR
      · simp [read_line_go, hlt, hterm] at h
      · simp only [List.map_cons, List.cons_append, read_line_go, if_pos hlt,
          if_neg hterm] at h ⊢
        exact ih more _ _ size h
    · simp [read_line_go, hlt] at h

/-- Frame property of the loop in the no-wrap regime (`size` below the 16-bit
limit): cells below the entry cursor or at/après `size` are never written, and
the cursor moves monotonically from `index` to at most `size`. -/
theorem read_line_go_frame (input : List (Option Nat)) :
    ∀ (buffer : Nat → Nat) (index size : Nat),
      index ≤ size → size < UINT16_MOD →
      (∀ j, j < index ∨ size ≤ j →
        (read_line_go size input buffer index).2.1 j = buffer j)
      ∧ index ≤ (read_line_go size input buffer index).2.2.1
      ∧ (read_line_go size input buffer index).2.2.1 ≤ size := by
  induction input with
  | nil =>
    intro buffer index size hle hM
    by_cases hlt : index < size
    · simp only [read_line_go, if_pos hlt]
      exact ⟨fun j _ => by simp, le_refl _, hle⟩
    · simp only [read_line_go, if_neg hlt]
      exact ⟨fun j _ => by simp, le_refl _, hle⟩
  | cons x rest ih =>
    intro buffer index size hle hM
    cases x with
    | none =>
      by_cases hlt : index < size
      · simp only [read_line_go, if_pos hlt]
        exact ⟨fun j _ => by simp, le_refl _, hle⟩
      · simp only [read_line_go, if_neg hlt]
        exact ⟨fun j _ => by simp, le_refl _, hle⟩
    | some c =>
      by_cases hlt : index < size
      · by_cases hterm : c = LF ∨ c = CR
        · simp only [read_line_go, if_pos hlt, if_pos hterm]
          refine ⟨?_, le_refl _, hle⟩
          intro j hj
          have hne : j ≠ index := by omega
          simp [hne]
        · have hmod : (index + 1) % UINT16_MOD = index + 1 :=
            Nat.mod_eq_of_lt (by omega)
          simp only [read_line_go, if_pos hlt, if_neg hterm, hmod]
          obtain ⟨hfr, hlo, hhi⟩ :=
            ih (fun j => if j = index then c % 256 else buffer j) (index + 1)
              size (by omega) hM
          refine ⟨?_, by omega, hhi⟩
          intro j hj
          have hne : j ≠ index := by omega
          have h0 := hfr j (by omega)
          simpa [hne] using h0
      · simp only [read_line_go, if_neg hlt]
        exact ⟨fun j _ => by simp, le_refl _, hle⟩

/-! ### Claim theorems for the line reader -/

/-- C3: `read_line` returns FILE_SIZE_EXCEEDED — with the buffer, the cursor
and the byte source completely untouched — exactly when the entry cursor is
greater than or equal to `size` (which covers every call with `size = 0`);
with entry cursor strictly below `size` that status is never produced. -/
theorem claim_C3 (buffer : Nat → Nat) (index size : Nat)
    (input : List (Option Nat)) :
    ((read_line buffer index size input).1 = stat_t.FILE_SIZE_EXCEEDED
      ↔ size ≤ index)
    ∧ (size ≤ index →
        read_line buffer index size input
          = (stat_t.FILE_SIZE_EXCEEDED, buffer, index, input)) := by
  constructor
  · constructor
    · intro h
      by_contra hlt
      rw [read_line, if_neg (by omega)] at h
      exact read_line_go_ne_FSE input buffer index size h
    · intro h
      rw [read_line, if_pos (by omega)]
  · intro h
    rw [read_line, if_pos (by omega)]

/-- Witness for C3: at cursor 5 with size 3 the call fails without touching
anything, and with size 0 it fails as well; at cursor 0 with size 3 the
status is not FILE_SIZE_EXCEEDED. -/
theorem claim_C3_witness :
    read_line (fun _ => 7) 5 3 [some 65]
        = (stat_t.FILE_SIZE_EXCEEDED, (fun _ => 7), 5, [some 65])
    ∧ (read_line (fun _ => 7) 0 0 []).1 = stat_t.FILE_SIZE_EXCEEDED
    ∧ ¬(read_line (fun _ => 7) 0 3 [some 65]).1 = stat_t.FILE_SIZE_EXCEEDED :=
  ⟨(claim_C3 (fun _ => 7) 5 3 [some 65]).2 (by omega),
   ((claim_C3 (fun _ => 7) 0 0 []).1).mpr (by omega),
   fun h => absurd (((claim_C3 (fun _ => 7) 0 3 [some 65]).1).mp h) (by omega)⟩

/-- C2: retry idempotence of `read_line`.  If a call on the available prefix
of a byte stream ends in EAGAIN, then a second call — with the buffer and the
cursor exactly as that call left them — on the later-arriving suffix returns
the same status, buffer, cursor and leftover source as one single call in
which the whole stream was available from the start. -/
theorem claim_C2 (pre suf : List Nat) (buffer : Nat → Nat) (index size : Nat)
    (h : (read_line buffer index size (pre.map some)).1 = stat_t.EAGAIN) :
    read_line (read_line buffer index size (pre.map some)).2.1
        (read_line buffer index size (pre.map some)).2.2.1 size (suf.map some)
      = read_line buffer index size ((pre ++ suf).map some) := by
  have hlt : index < size := by
    by_contra hge
    rw [read_line, if_pos (by omega)] at h
    simp at h
  have hrl : read_line buffer index size (pre.map some)
      = read_line_go size (pre.map some) buffer index := by
    rw [read_line, if_neg (by omega)]
  rw [hrl] at h ⊢
  have hcur := read_line_go_eagain_lt (pre.map some) buffer index size h
  have hL : read_line (read_line_go size (pre.map some) buffer index).2.1
      (read_line_go size (pre.map some) buffer index).2.2.1 size (suf.map some)
      = read_line_go size (suf.map some)
          (read_line_go size (pre.map some) buffer index).2.1
          (read_line_go size (pre.map some) buffer index).2.2.1 := by
    rw [read_line, if_neg (by omega)]
  have hR : read_line buffer index size ((pre ++ suf).map some)
      = read_line_go size (pre.map some ++ suf.map some) buffer index := by
    rw [read_line, if_neg (by omega), List.map_append]
  rw [hL, hR]
  exact (read_line_go_resume pre (suf.map some) buffer index size h).symm

/-- Witness for C2: the stream "ABC\n" split after "AB"; the retried call
agrees with the single-shot call on the whole stream. -/
theorem claim_C2_witness :
    read_line (read_line (fun _ => 0) 0 32 (List.map some [65, 66])).2.1
        (read_line (fun _ => 0) 0 32 (List.map some [65, 66])).2.2.1 32
        (List.map some [67, 10])
      = read_line (fun _ => 0) 0 32 (List.map some ([65, 66] ++ [67, 10])) :=
  claim_C2 [65, 66] [67, 10] (fun _ => 0) 0 32 (by decide)

/-- Helper: an in-range `getD` entry of a list is a member of the list. -/
theorem getD_mem_of_lt (bs : List Nat) (k : Nat) (hk : k < bs.length) :
    bs.getD k 0 ∈ bs := by
  rw [List.getD_eq_getElem bs 0 hk]
  exact List.getElem_mem hk

/-- C6 (amended): frame and bounds property of `read_line` for every call
with entry cursor `index < size` and `size` at most 65535 (the cursor is a
16-bit integer, so larger sizes let it wrap): buffer cells below the entry
cursor or at/beyond `size` are never written, and the returned cursor lies
between the entry cursor and `size`. -/
theorem claim_C6_amended (input : List (Option Nat)) (buffer : Nat → Nat)
    (index size : Nat) (h1 : index < size) (h2 : size < UINT16_MOD) :
    (∀ j, j < index ∨ size ≤ j →
      (read_line buffer index size input).2.1 j = buffer j)
    ∧ index ≤ (read_line buffer index size input).2.2.1
    ∧ (read_line buffer index size input).2.2.1 ≤ size := by
  rw [read_line, if_neg (by omega)]
  exact read_line_go_frame input buffer index size (by omega) h2

/-- Witness for C6 (amended): cursor 2, size 5, one byte then no data: no
cell outside [2, 5) changes and the cursor stays within [2, 5]. -/
theorem claim_C6_witness :
    (∀ j, j < 2 ∨ 5 ≤ j →
      (read_line (fun _ => 0) 2 5 [some 65, none]).2.1 j = (fun _ => 0 : Nat → Nat) j)
    ∧ 2 ≤ (read_line (fun _ => 0) 2 5 [some 65, none]).2.2.1
    ∧ (read_line (fun _ => 0) 2 5 [some 65, none]).2.2.1 ≤ 5 :=
  claim_C6_amended [some 65, none] (fun _ => 0) 2 5 (by omega) (by decide)

/-- C6 is false as stated for sizes of 2^16 and above: with entry cursor 1,
size 65536 and 65535 plain bytes available, the 16-bit cursor wraps past
65535 and the call returns with cursor 0, strictly below the entry cursor —
the claim asserts the returned cursor is never below the entry cursor. -/
theorem claim_C6_counterexample :
    (read_line (fun _ => 0) 1 65536
        ((List.replicate 65535 (70 : Nat)).map some)).1 = stat_t.EAGAIN
    ∧ (read_line (fun _ => 0) 1 65536
        ((List.replicate 65535 (70 : Nat)).map some)).2.2.1 = 0 := by
  obtain ⟨buffer2, heq⟩ :=
    read_line_go_consume_wrap (List.replicate 65535 (70 : Nat)) []
      (fun _ => 0) 1 65536
      (by
        intro c hc
        rcases List.eq_of_mem_replicate hc with rfl
        decide)
      (by norm_num [UINT16_MOD]) (by norm_num [UINT16_MOD])
  rw [List.append_nil] at heq
  have hmod : (1 + (List.replicate 65535 (70 : Nat)).length) % UINT16_MOD = 0 := by
    norm_num [List.length_replicate, UINT16_MOD]
  rw [hmod] at heq
  have hrl : read_line (fun _ => 0) 1 65536
      ((List.replicate 65535 (70 : Nat)).map some)
      = read_line_go 65536 ((List.replicate 65535 (70 : Nat)).map some)
          (fun _ => 0) 1 := by
    rw [read_line, if_neg (by omega)]
  rw [hrl, heq]
  constructor <;> norm_num [read_line_go]

/-- C5 (amended): for every call with entry cursor `index < size` and `size`
at most 65535 (16-bit cursor), if the source delivers `size - index` plain
non-terminator bytes with no gap, the call returns BUFFER_FULL with the
cursor exactly at `size`, the consumed bytes stored consecutively from the
entry cursor, and the remaining source untouched. -/
theorem claim_C5_amended (bs : List Nat) (rest : List (Option Nat))
    (buffer : Nat → Nat) (index size : Nat)
    (hno : ∀ c ∈ bs, ¬(c = LF ∨ c = CR))
    (hbytes : ∀ c ∈ bs, c < 256)
    (hlen : index + bs.length = size)
    (hlt : index < size)
    (hM : size < UINT16_MOD) :
    (read_line buffer index size (bs.map some ++ rest)).1 = stat_t.BUFFER_FULL
    ∧ (read_line buffer index size (bs.map some ++ rest)).2.2.1 = size
    ∧ (∀ j, index ≤ j → j < size →
        (read_line buffer index size (bs.map some ++ rest)).2.1 j
          = bs.getD (j - index) 0)
    ∧ (read_line buffer index size (bs.map some ++ rest)).2.2.2 = rest := by
  obtain ⟨buffer2, heq, hin, hout⟩ :=
    read_line_go_consume bs rest buffer index size hno (by omega) (by omega)
  have hrl : read_line buffer index size (bs.map some ++ rest)
      = read_line_go size (bs.map some ++ rest) buffer index := by
    rw [read_line, if_neg (by omega)]
  have hfull : read_line_go size rest buffer2 (index + bs.length)
      = (stat_t.BUFFER_FULL, buffer2, size, rest) := by
    rw [hlen]
    cases rest with
    | nil => simp [read_line_go]
    | cons y t => cases y <;> simp [read_line_go]
  rw [hrl, heq, hfull]
  refine ⟨rfl, rfl, ?_, rfl⟩
  intro j hj1 hj2
  have hb := hin j hj1 (by omega)
  have hmem : bs.getD (j - index) 0 ∈ bs :=
    getD_mem_of_lt bs (j - index) (by omega)
  show buffer2 j = bs.getD (j - index) 0
  rw [hb, Nat.mod_eq_of_lt (hbytes _ hmem)]

/-- Witness for C5 (amended): the spec's scenario — 10 plain bytes offered to
a size-5 buffer: BUFFER_FULL after exactly 5 bytes, cursor = 5, and the
first five bytes stored. -/
theorem claim_C5_witness :
    (read_line (fun _ => 0) 0 5
        (List.map some [65, 66, 67, 68, 69] ++ List.map some [70, 71, 72, 73, 74])).1
        = stat_t.BUFFER_FULL
    ∧ (read_line (fun _ => 0) 0 5
        (List.map some [65, 66, 67, 68, 69] ++ List.map some [70, 71, 72, 73, 74])).2.2.1
        = 5 :=
  ⟨(claim_C5_amended [65, 66, 67, 68, 69] (List.map some [70, 71, 72, 73, 74])
      (fun _ => 0) 0 5 (by decide) (by decide) (by decide) (by decide)
      (by decide)).1,
   (claim_C5_amended [65, 66, 67, 68, 69] (List.map some [70, 71, 72, 73, 74])
      (fun _ => 0) 0 5 (by decide) (by decide) (by decide) (by decide)
      (by decide)).2.1⟩

/-- C5 is false as stated when `size` is 2^16 or more: with entry cursor 0
and size 65536, after 65536 plain bytes the 16-bit cursor has wrapped back
to 0, so the loop never observes `cursor = size`; the call returns EAGAIN
with cursor 0 instead of BUFFER_FULL with cursor 65536. -/
theorem claim_C5_counterexample :
    (read_line (fun _ => 0) 0 65536
        ((List.replicate 65536 (70 : Nat)).map some)).1 = stat_t.EAGAIN
    ∧ (read_line (fun _ => 0) 0 65536
        ((List.replicate 65536 (70 : Nat)).map some)).2.2.1 = 0 := by
  obtain ⟨buffer2, heq⟩ :=
    read_line_go_consume_wrap (List.replicate 65536 (70 : Nat)) []
      (fun _ => 0) 0 65536
      (by
        intro c hc
        rcases List.eq_of_mem_replicate hc with rfl
        decide)
      (by norm_num [UINT16_MOD]) (by norm_num [UINT16_MOD])
  rw [List.append_nil] at heq
  have hmod : (0 + (List.replicate 65536 (70 : Nat)).length) % UINT16_MOD = 0 := by
    norm_num [List.length_replicate, UINT16_MOD]
  rw [hmod] at heq
  have hrl : read_line (fun _ => 0) 0 65536
      ((List.replicate 65536 (70 : Nat)).map some)
      = read_line_go 65536 ((List.replicate 65536 (70 : Nat)).map some)
          (fun _ => 0) 0 := by
    rw [read_line, if_neg (by omega)]
  rw [hrl, heq]
  constructor <;> norm_num [read_line_go]

/-- C4 (amended): if the source delivers a run of plain non-terminator bytes
and then reports "no data", with the run ending strictly before `size` and —
amendment — with entry cursor plus run length below 2^16 (the cursor is a
16-bit integer), the call returns EAGAIN with the cursor at the first free
position (entry cursor plus the number of bytes consumed), the consumed
bytes stored consecutively, and all other cells untouched. -/
theorem claim_C4_amended (bs : List Nat) (rest : List (Option Nat))
    (buffer : Nat → Nat) (index size : Nat)
    (hno : ∀ c ∈ bs, ¬(c = LF ∨ c = CR))
    (hbytes : ∀ c ∈ bs, c < 256)
    (hlt : index + bs.length < size)
    (hM : index + bs.length < UINT16_MOD) :
    (read_line buffer index size (bs.map some ++ none :: rest)).1 = stat_t.EAGAIN
    ∧ (read_line buffer index size (bs.map some ++ none :: rest)).2.2.1
        = index + bs.length
    ∧ (∀ j, index ≤ j → j < index + bs.length →
        (read_line buffer index size (bs.map some ++ none :: rest)).2.1 j
          = bs.getD (j - index) 0)
    ∧ (∀ j, j < index ∨ index + bs.length ≤ j →
        (read_line buffer index size (bs.map some ++ none :: rest)).2.1 j
          = buffer j) := by
  obtain ⟨buffer2, heq, hin, hout⟩ :=
    read_line_go_consume bs (none :: rest) buffer index size hno (by omega)
      (by omega)
  have hrl : read_line buffer index size (bs.map some ++ none :: rest)
      = read_line_go size (bs.map some ++ none :: rest) buffer index := by
    rw [read_line, if_neg (by omega)]
  have hstep : read_line_go size (none :: rest) buffer2 (index + bs.length)
      = (stat_t.EAGAIN, buffer2, index + bs.length, rest) := by
    simp [read_line_go, Nat.lt_of_le_of_lt (le_refl _) hlt]
  rw [hrl, heq, hstep]
  refine ⟨rfl, rfl, ?_, ?_⟩
  · intro j hj1 hj2
    have hb := hin j hj1 hj2
    have hmem : bs.getD (j - index) 0 ∈ bs :=
      getD_mem_of_lt bs (j - index) (by omega)
    show buffer2 j = bs.getD (j - index) 0
    rw [hb, Nat.mod_eq_of_lt (hbytes _ hmem)]
  · intro j hj
    exact hout j hj

/-- Witness for C4 (amended): the spec's scenario — bytes "ABC" then no
data, size 32, entry cursor 0: EAGAIN, cursor 3, buffer holds "ABC". -/
theorem claim_C4_witness :
    (read_line (fun _ => 0) 0 32 (List.map some [65, 66, 67] ++ none :: [])).1
        = stat_t.EAGAIN
    ∧ (read_line (fun _ => 0) 0 32
        (List.map some [65, 66, 67] ++ none :: [])).2.2.1 = 0 + 3
    ∧ (read_line (fun _ => 0) 0 32
        (List.map some [65, 66, 67] ++ none :: [])).2.1 0 = 65 :=
  ⟨(claim_C4_amended [65, 66, 67] [] (fun _ => 0) 0 32 (by decide) (by decide)
      (by decide) (by decide)).1,
   (claim_C4_amended [65, 66, 67] [] (fun _ => 0) 0 32 (by decide) (by decide)
      (by decide) (by decide)).2.1,
   by
    have h0 := (claim_C4_amended [65, 66, 67] [] (fun _ => 0) 0 32 (by decide)
      (by decide) (by decide) (by decide)).2.2.1 0 (by decide) (by decide)
    simpa using h0⟩

/-- C4 is false as stated once the 16-bit cursor wraps: with entry cursor 0,
size 100000 and 70000 plain bytes followed by "no data", the call returns
EAGAIN but the cursor is 70000 mod 65536 = 4464, not the entry cursor plus
the 70000 bytes consumed — bytes were silently overwritten from position 0. -/
theorem claim_C4_counterexample :
    (read_line (fun _ => 0) 0 100000
        ((List.replicate 70000 (70 : Nat)).map some ++ [none])).1 = stat_t.EAGAIN
    ∧ (read_line (fun _ => 0) 0 100000
        ((List.replicate 70000 (70 : Nat)).map some ++ [none])).2.2.1 = 4464 := by
  obtain ⟨buffer2, heq⟩ :=
    read_line_go_consume_wrap (List.replicate 70000 (70 : Nat)) [none]
      (fun _ => 0) 0 100000
      (by
        intro c hc
        rcases List.eq_of_mem_replicate hc with rfl
        decide)
      (by norm_num [UINT16_MOD]) (by norm_num [UINT16_MOD])
  have hmod : (0 + (List.replicate 70000 (70 : Nat)).length) % UINT16_MOD
      = 4464 := by
    norm_num [List.length_replicate, UINT16_MOD]
  rw [hmod] at heq
  have hrl : read_line (fun _ => 0) 0 100000
      ((List.replicate 70000 (70 : Nat)).map some ++ [none])
      = read_line_go 100000
          ((List.replicate 70000 (70 : Nat)).map some ++ [none])
          (fun _ => 0) 0 := by
    rw [read_line, if_neg (by omega)]
  rw [hrl, heq]
  constructor <;> norm_num [read_line_go]

/-- Helper: every byte kept by `takeWhile not_term` is neither LF nor CR. -/
theorem mem_takeWhile_not_term (bs : List Nat) :
    ∀ c ∈ bs.takeWhile not_term, ¬(c = LF ∨ c = CR) := by
  intro c hc
  have h := List.mem_takeWhile_imp hc
  simp [not_term] at h
  exact not_or.mpr h

/-- Helper: the first byte dropped by `dropWhile not_term` is a terminator. -/
theorem dropWhile_head_term (bs : List Nat) :
    ∀ t r, bs.dropWhile not_term = t :: r → (t = LF ∨ t = CR) := by
  induction bs with
  | nil =>
    intro t r h
    simp at h
  | cons a l ih =>
    intro t r h
    rw [List.dropWhile_cons] at h
    by_cases ha : not_term a
    · rw [if_pos ha] at h
      exact ih t r h
    · rw [if_neg ha] at h
      injection h with h1 h2
      subst h1
      have ha2 := ha
      simp [not_term] at ha2
      tauto

/-- Helper: when nothing is dropped, the whole list is terminator-free. -/
theorem takeWhile_eq_self_of_dropWhile_nil (bs : List Nat)
    (h : bs.dropWhile not_term = []) : bs.takeWhile not_term = bs := by
  have h2 := List.takeWhile_append_dropWhile not_term bs
  rw [h, List.append_nil] at h2
  exact h2

/-- C1 (amended): entry cursor 0, `size` larger than the prefix of bytes
before the first CR/LF, and — amendment — that prefix shorter than 2^16 (the
cursor is 16-bit, longer lines wrap it).  Then `read_line` returns OK exactly
when a CR/LF occurs in the stream, and at an OK return the cursor equals the
number of bytes preceding the first CR/LF, those bytes sit verbatim at
positions 0.. below the cursor, and the terminator's position holds NUL. -/
theorem claim_C1_amended (bs : List Nat) (buffer : Nat → Nat) (size : Nat)
    (hbytes : ∀ c ∈ bs, c < 256)
    (hsize : (bs.takeWhile not_term).length < size)
    (hM : (bs.takeWhile not_term).length < UINT16_MOD) :
    ((read_line buffer 0 size (bs.map some)).1 = stat_t.OK
        ↔ (bs.takeWhile not_term).length < bs.length)
    ∧ ((bs.takeWhile not_term).length < bs.length →
        (read_line buffer 0 size (bs.map some)).2.2.1
            = (bs.takeWhile not_term).length
        ∧ (∀ j, j < (bs.takeWhile not_term).length →
            (read_line buffer 0 size (bs.map some)).2.1 j = bs.getD j 0)
        ∧ (read_line buffer 0 size (bs.map some)).2.1
            ((bs.takeWhile not_term).length) = NUL) := by
  have hrl : read_line buffer 0 size (bs.map some)
      = read_line_go size (bs.map some) buffer 0 := by
    rw [read_line, if_neg (by omega)]
  rcases hdrop : bs.dropWhile not_term with _ | ⟨t, r⟩
  · have htake := takeWhile_eq_self_of_dropWhile_nil bs hdrop
    have hlen : (bs.takeWhile not_term).length = bs.length := by rw [htake]
    have hnoterm : ∀ c : Nat, some c ∈ bs.map some → ¬(c = LF ∨ c = CR) := by
      intro c hc
      obtain ⟨c2, hc2, hcc⟩ := List.mem_map.mp hc
      obtain rfl := Option.some.inj hcc
      exact mem_takeWhile_not_term bs c2 (by rw [htake]; exact hc2)
    have hnotok := read_line_go_no_term (bs.map some) buffer 0 size hnoterm
    refine ⟨?_, ?_⟩
    · rw [hrl]
      exact ⟨fun h => absurd h hnotok, fun h => absurd h (by omega)⟩
    · intro h
      exact absurd h (by omega)
  · have hterm : t = LF ∨ t = CR := dropWhile_head_term bs t r hdrop
    have hbs : bs.takeWhile not_term ++ t :: r = bs := by
      rw [← hdrop]
      exact List.takeWhile_append_dropWhile not_term bs
    have hplen : (bs.takeWhile not_term).length < bs.length := by
      have hlen2 := congrArg List.length hbs
      simp only [List.length_append, List.length_cons] at hlen2
      omega
    have hinput : bs.map some
        = (bs.takeWhile not_term).map some ++ (some t :: r.map some) := by
      conv_lhs => rw [← hbs]
      simp
    obtain ⟨buffer2, heq, hin, hout⟩ :=
      read_line_go_consume (bs.takeWhile not_term) (some t :: r.map some)
        buffer 0 size (mem_takeWhile_not_term bs) (by omega) (by omega)
    have hfinal : read_line buffer 0 size (bs.map some)
        = (stat_t.OK,
           fun j => if j = (bs.takeWhile not_term).length then NUL
             else if j = (bs.takeWhile not_term).length then t % 256
             else buffer2 j,
           (bs.takeWhile not_term).length,
           r.map some) := by
      rw [hrl, hinput, heq]
      have hz : (0
          : Nat) + (bs.takeWhile not_term).length
          = (bs.takeWhile not_term).length := Nat.zero_add _
      rw [hz]
      simp only [read_line_go, if_pos hsize, if_pos hterm]
    rw [hfinal]
    refine ⟨⟨fun _ => hplen, fun _ => rfl⟩, fun _ => ⟨rfl, ?_, ?_⟩⟩
    · intro j hj
      have hne : j ≠ (bs.takeWhile not_term).length := by omega
      show (if j = (bs.takeWhile not_term).length then NUL
        else if j = (bs.takeWhile not_term).length then t % 256
        else buffer2 j) = bs.getD j 0
      rw [if_neg hne, if_neg hne]
      have hb := hin j (by omega) (by omega)
      simp only [Nat.sub_zero] at hb
      have hgetD : (bs.takeWhile not_term).getD j 0 = bs.getD j 0 := by
        conv_rhs => rw [← hbs]
        rw [List.getD_append _ _ _ _ hj]
      have hmem : bs.getD j 0 ∈ bs := getD_mem_of_lt bs j (by omega)
      rw [hb, hgetD, Nat.mod_eq_of_lt (hbytes _ hmem)]
    · show (if (bs.takeWhile not_term).length = (bs.takeWhile not_term).length
        then NUL
        else if (bs.takeWhile not_term).length = (bs.takeWhile not_term).length
        then t % 256
        else buffer2 ((bs.takeWhile not_term).length)) = NUL
      rw [if_pos rfl]

/-- Witness for C1 (amended): the spec's scenario "G1 X10\n" with size 32:
OK, cursor 6, the first stored byte is the first input byte, and position 6
holds NUL. -/
theorem claim_C1_witness :
    (read_line (fun _ => 0) 0 32
        (List.map some [71, 49, 32, 88, 49, 48, 10])).1 = stat_t.OK
    ∧ (read_line (fun _ => 0) 0 32
        (List.map some [71, 49, 32, 88, 49, 48, 10])).2.2.1
        = (List.takeWhile not_term [71, 49, 32, 88, 49, 48, 10]).length
    ∧ (read_line (fun _ => 0) 0 32
        (List.map some [71, 49, 32, 88, 49, 48, 10])).2.1 0
        = List.getD [71, 49, 32, 88, 49, 48, 10] 0 0 :=
  ⟨(claim_C1_amended [71, 49, 32, 88, 49, 48, 10] (fun _ => 0) 32 (by decide)
      (by decide) (by decide)).1.mpr (by decide),
   ((claim_C1_amended [71, 49, 32, 88, 49, 48, 10] (fun _ => 0) 32 (by decide)
      (by decide) (by decide)).2 (by decide)).1,
   ((claim_C1_amended [71, 49, 32, 88, 49, 48, 10] (fun _ => 0) 32 (by decide)
      (by decide) (by decide)).2 (by decide)).2.1 0 (by decide)⟩

/-- C1 is false as stated when 2^16 or more bytes precede the first CR/LF:
with 65536 plain bytes followed by LF and an amply large size 65538, the
16-bit cursor wraps to 0 before the terminator arrives, so the call returns
OK with cursor 0 (not the 65536 bytes preceding the terminator) and with NUL
at position 0 where the claim requires the first input byte (70). -/
theorem claim_C1_counterexample :
    (read_line (fun _ => 0) 0 65538
        ((List.replicate 65536 (70 : Nat)).map some ++ [some 10])).1 = stat_t.OK
    ∧ (read_line (fun _ => 0) 0 65538
        ((List.replicate 65536 (70 : Nat)).map some ++ [some 10])).2.2.1 = 0
    ∧ (read_line (fun _ => 0) 0 65538
        ((List.replicate 65536 (70 : Nat)).map some ++ [some 10])).2.1 0 = 0 := by
  obtain ⟨buffer2, heq⟩ :=
    read_line_go_consume_wrap (List.replicate 65536 (70 : Nat)) [some 10]
      (fun _ => 0) 0 65538
      (by
        intro c hc
        rcases List.eq_of_mem_replicate hc with rfl
        decide)
      (by norm_num [UINT16_MOD]) (by norm_num [UINT16_MOD])
  have hmod : (0 + (List.replicate 65536 (70 : Nat)).length) % UINT16_MOD
      = 0 := by
    norm_num [List.length_replicate, UINT16_MOD]
  rw [hmod] at heq
  have hrl : read_line (fun _ => 0) 0 65538
      ((List.replicate 65536 (70 : Nat)).map some ++ [some 10])
      = read_line_go 65538
          ((List.replicate 65536 (70 : Nat)).map some ++ [some 10])
          (fun _ => 0) 0 := by
    rw [read_line, if_neg (by omega)]
  rw [hrl, heq]
  refine ⟨?_, ?_, ?_⟩ <;> norm_num [read_line_go, LF, CR, NUL]

/-- C7: `xio_test_assertions` returns OK iff both sentinels hold the magic
constant and ASSERTION_FAILURE otherwise (it is a pure query by type);
after `xio_init_assertions`, overwriting either sentinel with any other
value yields ASSERTION_FAILURE, and the freshly initialised state yields OK. -/
theorem claim_C7 (MAGICNUM : Nat) (s : xioSingleton_t) :
    (xio_test_assertions MAGICNUM s = stat_t.OK ↔
      (s.magic_start = MAGICNUM ∧ s.magic_end = MAGICNUM))
    ∧ (¬(s.magic_start = MAGICNUM ∧ s.magic_end = MAGICNUM) →
        xio_test_assertions MAGICNUM s = stat_t.XIO_ASSERTION_FAILURE)
    ∧ (∀ v, v ≠ MAGICNUM →
        xio_test_assertions MAGICNUM
          { xio_init_assertions MAGICNUM s with magic_start := v }
          = stat_t.XIO_ASSERTION_FAILURE
        ∧ xio_test_assertions MAGICNUM
          { xio_init_assertions MAGICNUM s with magic_end := v }
          = stat_t.XIO_ASSERTION_FAILURE)
    ∧ xio_test_assertions MAGICNUM (xio_init_assertions MAGICNUM s)
        = stat_t.OK := by
  refine ⟨?_, ?_, ?_, ?_⟩
  · unfold xio_test_assertions
    by_cases h : s.magic_start ≠ MAGICNUM ∨ s.magic_end ≠ MAGICNUM
    · rw [if_pos h]
      constructor
      · intro hok
        simp at hok
      · intro hboth
        exfalso
        tauto
    · rw [if_neg h]
      push_neg at h
      exact ⟨fun _ => h, fun _ => rfl⟩
  · intro hnot
    have h : s.magic_start ≠ MAGICNUM ∨ s.magic_end ≠ MAGICNUM := by tauto
    simp only [xio_test_assertions, if_pos h]
  · intro v hv
    constructor
    · simp only [xio_test_assertions, xio_init_assertions]
      rw [if_pos (Or.inl hv)]
    · simp only [xio_test_assertions, xio_init_assertions]
      rw [if_pos (Or.inr hv)]
  · simp only [xio_test_assertions, xio_init_assertions]
    rw [if_neg (by simp)]

/-- Witness for C7: with magic 4660, flipping either sentinel to 0 after
initialisation fails the check and the initialised state passes it. -/
theorem claim_C7_witness :
    xio_test_assertions 4660
        { xio_init_assertions 4660 xio_example with magic_start := 0 }
        = stat_t.XIO_ASSERTION_FAILURE
    ∧ xio_test_assertions 4660
        { xio_init_assertions 4660 xio_example with magic_end := 0 }
        = stat_t.XIO_ASSERTION_FAILURE
    ∧ xio_test_assertions 4660 (xio_init_assertions 4660 xio_example)
        = stat_t.OK :=
  ⟨((claim_C7 4660 xio_example).2.2.1 0 (by omega)).1,
   ((claim_C7 4660 xio_example).2.2.1 0 (by omega)).2,
   (claim_C7 4660 xio_example).2.2.2⟩

/-- C8: the `next_state` mailbox is last-write-wins.  After any finite
nonempty sequence of connection notifications delivered to a device, its
`next_state` equals the value determined by the last notification alone
(connected ↦ DEVICE_CONNECTED, not-connected ↦ DEVICE_NOT_CONNECTED),
regardless of the starting state and of all earlier notifications. -/
theorem claim_C8 (s : xioSingleton_t) (dev : Nat) (ns : List Bool) (b : Bool) :
    ((notify_sequence s dev (ns ++ [b])).d dev).next_state
      = (if b then DEVICE_CONNECTED else DEVICE_NOT_CONNECTED) := by
  unfold notify_sequence
  rw [List.foldl_append]
  simp [connection_callback]

/-- C9: `xio_callback` returns OK and leaves the whole singleton unchanged
in every state — both branches of its test return `(OK, xio)` with no write —
so any number of callback invocations also leaves the state fixed and a
pending `next_state` stays pending. -/
theorem claim_C9 (s : xioSingleton_t) :
    xio_callback s = (stat_t.OK, s)
    ∧ ∀ n : Nat, (fun t => (xio_callback t).2)^[n] s = s := by
  have h1 : xio_callback s = (stat_t.OK, s) := by
    unfold xio_callback
    split <;> rfl
  refine ⟨h1, fun n => Function.iterate_fixed ?_ n⟩
  show (xio_callback s).2 = s
  rw [h1]

/-- C10 (amended): every call to `xio_set_spi` returns OK and stores the
value converted to an unsigned 8-bit integer (truncated) — not verbatim, the
field is a `uint8_t` — touching no other part of the singleton; and when the
value equals neither SPI_ENABLE (1) nor SPI_DISABLE (0) the pin modes are
left unchanged. -/
theorem claim_C10_amended (nv : nvObj_t) (s : xioSingleton_t)
    (pins : spiPins_t) :
    (xio_set_spi nv s pins).1 = stat_t.OK
    ∧ (xio_set_spi nv s pins).2.1.spi_state = float_to_uint8 nv.value
    ∧ (xio_set_spi nv s pins).2.1.magic_start = s.magic_start
    ∧ (xio_set_spi nv s pins).2.1.magic_end = s.magic_end
    ∧ (xio_set_spi nv s pins).2.1.d = s.d
    ∧ (xio_set_spi nv s pins).2.1.c = s.c
    ∧ (nv.value ≠ SPI_ENABLE → nv.value ≠ SPI_DISABLE →
        (xio_set_spi nv s pins).2.2 = pins) := by
  by_cases h1 : fp_EQ nv.value SPI_ENABLE
  · have hval : nv.value = SPI_ENABLE := by simpa [fp_EQ] using h1
    refine ⟨?_, ?_, ?_, ?_, ?_, ?_, fun hne _ => absurd hval hne⟩ <;>
      simp [xio_set_spi, h1]
  · by_cases h2 : fp_EQ nv.value SPI_DISABLE
    · have hval : nv.value = SPI_DISABLE := by simpa [fp_EQ] using h2
      refine ⟨?_, ?_, ?_, ?_, ?_, ?_, fun _ hne => absurd hval hne⟩ <;>
        simp [xio_set_spi, h1, h2]
    · refine ⟨?_, ?_, ?_, ?_, ?_, ?_, fun _ _ => ?_⟩ <;>
        simp [xio_set_spi, h1, h2]

/-- Witness for C10 (amended): value 7 is out of the {0, 1} domain — the
call returns OK, stores 7, and leaves the pins exactly as they were. -/
theorem claim_C10_witness :
    (xio_set_spi ⟨(7 : ℚ)⟩ xio_example spi_pins_example).1 = stat_t.OK
    ∧ (xio_set_spi ⟨(7 : ℚ)⟩ xio_example spi_pins_example).2.2
        = spi_pins_example :=
  ⟨(claim_C10_amended ⟨(7 : ℚ)⟩ xio_example spi_pins_example).1,
   (claim_C10_amended ⟨(7 : ℚ)⟩ xio_example spi_pins_example).2.2.2.2.2.2
     (by norm_num [SPI_ENABLE]) (by norm_num [SPI_DISABLE])⟩

/-- C10 is false as stated: the stored field is a `uint8_t`, so the float
value 2.5 is not stored verbatim — the call stores 2, which differs from the
value passed in.  (The call still returns OK and, 2.5 matching neither
constant, leaves the pins alone.) -/
theorem claim_C10_counterexample :
    (xio_set_spi ⟨(5 : ℚ)/2⟩ xio_example spi_pins_example).1 = stat_t.OK
    ∧ (xio_set_spi ⟨(5 : ℚ)/2⟩ xio_example spi_pins_example).2.1.spi_state = 2
    ∧ ((xio_set_spi ⟨(5 : ℚ)/2⟩ xio_example
        spi_pins_example).2.1.spi_state : ℚ) ≠ (5 : ℚ)/2 := by
  have hb1 : fp_EQ ((5 : ℚ)/2) SPI_ENABLE = false := by
    simp only [fp_EQ, SPI_ENABLE, beq_eq_false_iff_ne, ne_eq]
    norm_num
  have hb2 : fp_EQ ((5 : ℚ)/2) SPI_DISABLE = false := by
    simp only [fp_EQ, SPI_DISABLE, beq_eq_false_iff_ne, ne_eq]
    norm_num
  have hfloor : float_to_uint8 ((5 : ℚ)/2) = 2 := by
    have h5 : (⌊(5 : ℚ)/2⌋ : ℤ) = 2 := by
      rw [Int.floor_eq_iff]
      norm_num
    unfold float_to_uint8
    rw [h5]
    decide
  have hstate : (xio_set_spi ⟨(5 : ℚ)/2⟩ xio_example
      spi_pins_example).2.1.spi_state = 2 := by
    simp [xio_set_spi, hb1, hb2, hfloor]
  refine ⟨by simp [xio_set_spi, hb1, hb2], hstate, ?_⟩
  rw [hstate]
  norm_num
